import Mathlib

/-!
Verification of the letterbox-aware coordinate remapping and
confidence-filtering pipeline of `OnnxInfer`
(`recipes/deployment/onnx_inference.py`) and of
`BaseExporter._filter_format` (`trolo/export/base.py`).

Machine floats are modelled as exact rationals, Python ints as `ℤ`.
Python `int(x)` truncates toward zero; Python `//` is floor division;
Python division raises `ZeroDivisionError` on a zero denominator, which we
model with `Except`.  External collaborators (PIL image loading,
`sv.letterbox_image`, the ONNX session) are treated as opaque successes;
their outputs are parameters of the model.
-/

/-- Error kinds that can surface from the modelled pipeline.  The first three
are the Python exceptions the code can actually raise; the last three are the
distinct error kinds named by the design documentation, kept in the same type
so that statements can compare the two. -/
inductive PyErr where
  | zeroDivisionError
  | valueError
  | typeError
  | loadError
  | invalidInput
  | shapeMismatch
deriving DecidableEq, Repr

/-- A box in center form `(xc, yc, w, h)`. -/
structure CBox where
  xc : ℚ
  yc : ℚ
  w : ℚ
  h : ℚ
deriving DecidableEq, Repr

/-- A box in corner form `(x1, y1, x2, y2)`. -/
structure XBox where
  x1 : ℚ
  y1 : ℚ
  x2 : ℚ
  y2 : ℚ
deriving DecidableEq, Repr

/-- Python `int(x)`: truncation toward zero. -/
def pytrunc (q : ℚ) : ℤ := if q < 0 then ⌈q⌉ else ⌊q⌋

/-- Python `a // b` on integers: floor division. -/
def pyFloorDiv (a b : ℤ) : ℤ := ⌊(a : ℚ) / (b : ℚ)⌋

/-- Modelled from the spec: `sv.xcycwh_to_xyxy`, the external center-form to
corner-form conversion (spec §4.2 Step 1: `x1 = xc - w/2, x2 = xc + w/2`,
same for y). -/
def xcycwhToXyxy (b : CBox) : XBox :=
  { x1 := b.xc - b.w / 2
    y1 := b.yc - b.h / 2
    x2 := b.xc + b.w / 2
    y2 := b.yc + b.h / 2 }

/-- `width_new` of `post_process` (lines 117-122): the letterboxed content
width.  `if image_ratio >= target_ratio: width_new = letterbox_w else:
width_new = int(letterbox_h * image_ratio)`. -/
def contentW (w h lw lh : ℤ) : ℤ :=
  if (w : ℚ) / (h : ℚ) ≥ (lw : ℚ) / (lh : ℚ) then lw
  else pytrunc ((lh : ℚ) * ((w : ℚ) / (h : ℚ)))

/-- `height_new` of `post_process` (lines 117-122): the letterboxed content
height.  `if image_ratio >= target_ratio: height_new = int(letterbox_w /
image_ratio) else: height_new = letterbox_h`. -/
def contentH (w h lw lh : ℤ) : ℤ :=
  if (w : ℚ) / (h : ℚ) ≥ (lw : ℚ) / (lh : ℚ) then
    pytrunc ((lw : ℚ) / ((w : ℚ) / (h : ℚ)))
  else lh

/-- `padding_left = (letterbox_w - width_new) // 2` (line 127). -/
def padLeft (w h lw lh : ℤ) : ℤ := pyFloorDiv (lw - contentW w h lw lh) 2

/-- `padding_top = (letterbox_h - height_new) // 2` (line 126). -/
def padTop (w h lw lh : ℤ) : ℤ := pyFloorDiv (lh - contentH w h lw lh) 2

/-- `OnnxInfer.post_process` (lines 106-135) on one already corner-converted,
letterbox-scaled box: subtract the paddings, then multiply both axes by
`scale = input_w / width_new`. -/
def postProcessBox (w h lw lh : ℤ) (b : XBox) : XBox :=
  let scale : ℚ := (w : ℚ) / (contentW w h lw lh : ℚ)
  let pl : ℚ := (padLeft w h lw lh : ℚ)
  let pt : ℚ := (padTop w h lw lh : ℚ)
  { x1 := (b.x1 * (lw : ℚ) - pl) * scale
    y1 := (b.y1 * (lh : ℚ) - pt) * scale
    x2 := (b.x2 * (lw : ℚ) - pl) * scale
    y2 := (b.y2 * (lh : ℚ) - pt) * scale }

/-- `OnnxInfer.post_process` (lines 106-135).  Steps in source order:
convert center form to corner form, scale x by `letterbox_w` and y by
`letterbox_h`, compute `target_ratio = letterbox_w / letterbox_h` and
`image_ratio = input_w / input_h` (each division raising `ZeroDivisionError`
on a zero denominator, in that order), pick the content dimensions by branch,
compute `scale = input_w / width_new`, subtract the paddings and multiply by
`scale`. -/
def postProcess (w h lw lh : ℤ) (boxes : List CBox) : Except PyErr (List XBox) :=
  if lh = 0 then .error .zeroDivisionError
  else if h = 0 then .error .zeroDivisionError
  else if (w : ℚ) / (h : ℚ) ≥ (lw : ℚ) / (lh : ℚ) ∧ (w : ℚ) / (h : ℚ) = 0 then
    .error .zeroDivisionError
  else if contentW w h lw lh = 0 then .error .zeroDivisionError
  else .ok (boxes.map (fun b => postProcessBox w h lw lh (xcycwhToXyxy b)))

/-- One remapped detection: corner-form box in original pixel space, class
label, confidence. -/
structure Detection where
  box : XBox
  label : ℤ
  conf : ℚ
deriving DecidableEq, Repr

/-- The confidence filter of `infer` (line 70):
`detections[detections.confidence > conf_threshold]` keeps, in order, the
detections whose confidence is strictly greater than the threshold. -/
def filterByConf (t : ℚ) (l : List Detection) : List Detection :=
  l.filter (fun d => t < d.conf)

/-- The (squeezed) output of the external detector session: three arrays
matched by index. -/
structure DetectorOut where
  labels : List ℤ
  boxes : List CBox
  scores : List ℚ

/-- Modelled from the spec: the external `sv.Detections` constructor (used at
line 69), which fails when the labels/boxes/scores arrays have inconsistent
lengths and returns no partial result; the spec names this failure kind
`ShapeMismatch`. -/
def mkDetections (xyxy : List XBox) (scores : List ℚ) (labels : List ℤ) :
    Except PyErr (List Detection) :=
  if xyxy.length = scores.length ∧ scores.length = labels.length then
    .ok ((xyxy.zip (labels.zip scores)).map (fun p => ⟨p.1, p.2.1, p.2.2⟩))
  else .error .shapeMismatch

/-- An input image as the pipeline sees it: whether `Image.open` succeeds,
and the dimensions `image.size` reports. -/
structure ImageFile where
  loadable : Bool
  width : ℤ
  height : ℤ

/-- The `infer_resolution` constructor argument: Python callers may pass an
int or a pair. -/
inductive ResolutionArg where
  | int (n : ℤ)
  | pair (w h : ℤ)
deriving DecidableEq, Repr

/-- `OnnxInfer.__init__` lines 37-39: the conditional int-to-pair
normalization (line 37-38) followed by the unconditional reassignment
`self.infer_resolution = infer_resolution` (line 39).  The value of
`self.infer_resolution` after line 39 is returned. -/
def storeInferResolution (arg : ResolutionArg) : ResolutionArg :=
  let _afterLine38 : Option ResolutionArg :=
    match arg with
    | .int n => some (ResolutionArg.pair n n)
    | _ => none
  arg

/-- Line 110: `letterbox_w, letterbox_h = self.infer_resolution`; unpacking
an int raises `TypeError`. -/
def unpackResolution : ResolutionArg → Except PyErr (ℤ × ℤ)
  | .pair w h => .ok (w, h)
  | .int _ => .error .typeError

/-- `post_process` as called with the stored `self.infer_resolution`: first
the tuple unpacking of line 110, then the arithmetic of lines 112-135. -/
def postProcessR (res : ResolutionArg) (w h : ℤ) (boxes : List CBox) :
    Except PyErr (List XBox) :=
  match unpackResolution res with
  | .error e => .error e
  | .ok (lw, lh) => postProcess w h lw lh boxes

/-- `OnnxInfer.infer` (lines 44-76): open the image, preprocess (the external
letterbox call, opaque here), run the session (opaque; its squeezed output is
the parameter `out`), `post_process` the boxes against `image.size`, build
`sv.Detections`, filter by `confidence > conf_threshold`.  Annotation,
display and saving are side effects that do not change the returned value. -/
def infer (img : ImageFile) (out : DetectorOut) (res : ResolutionArg) (conf : ℚ) :
    Except PyErr (List Detection) :=
  if img.loadable = false then .error .loadError
  else
    match postProcessR (storeInferResolution res) img.width img.height out.boxes with
    | .error e => .error e
    | .ok xyxy =>
      match mkDetections xyxy out.scores out.labels with
      | .error e => .error e
      | .ok dets => .ok (filterByConf conf dets)

/-- `DEFAULT_EXPORT_FORMAT` (base.py line 13). -/
def DEFAULT_EXPORT_FORMAT : List String := ["onnx"]

/-- A Python value passed as `export_format`: the annotation says `str`, but
the default argument is the list `DEFAULT_EXPORT_FORMAT` itself. -/
inductive FormatArg where
  | str (s : String)
  | strList (l : List String)
deriving DecidableEq, Repr

/-- Python `export_format in DEFAULT_EXPORT_FORMAT` (base.py line 39): list
membership tested with `==`; a list value never equals a string element. -/
def pyInDefaultFormats : FormatArg → Bool
  | .str s => DEFAULT_EXPORT_FORMAT.contains s
  | .strList _ => false

/-- `BaseExporter._filter_format` (base.py lines 38-40): raise `ValueError`
when the argument is not in `DEFAULT_EXPORT_FORMAT`, otherwise fall through
returning `None`. -/
def filterFormat (arg : FormatArg) : Except PyErr Unit :=
  if pyInDefaultFormats arg = false then .error .valueError else .ok ()

/-- The zero-argument call `self._filter_format()`: the default argument is
the list `DEFAULT_EXPORT_FORMAT`, not a string. -/
def filterFormatDefault : Except PyErr Unit :=
  filterFormat (.strList DEFAULT_EXPORT_FORMAT)

/-- `width_new` as claim C1 words it: `floor` instead of Python `int`
truncation (they agree on non-negative values). -/
def claimContentW (w h lw lh : ℤ) : ℤ :=
  if (w : ℚ) / (h : ℚ) ≥ (lw : ℚ) / (lh : ℚ) then lw
  else ⌊(lh : ℚ) * ((w : ℚ) / (h : ℚ))⌋

/-- `height_new` as claim C1 words it. -/
def claimContentH (w h lw lh : ℤ) : ℤ :=
  if (w : ℚ) / (h : ℚ) ≥ (lw : ℚ) / (lh : ℚ) then
    ⌊(lw : ℚ) / ((w : ℚ) / (h : ℚ))⌋
  else lh

/-- The per-box mapping claim C1 describes, written from the claim's words:
corner-convert; multiply x by `letterbox_w` and y by `letterbox_h`; content
dimensions with `floor`; `pad_left = floor((letterbox_w - width_new)/2)` and
`pad_top = floor((letterbox_h - height_new)/2)`; subtract the pads; multiply
both axes by the single uniform factor `scale = input_w / width_new` (total
rational division). -/
def specC1Map (w h lw lh : ℤ) (b : CBox) : XBox :=
  let c := xcycwhToXyxy b
  let width_new := claimContentW w h lw lh
  let height_new := claimContentH w h lw lh
  let pl : ℚ := (⌊((lw - width_new : ℤ) : ℚ) / 2⌋ : ℤ)
  let pt : ℚ := (⌊((lh - height_new : ℤ) : ℚ) / 2⌋ : ℤ)
  let scale : ℚ := (w : ℚ) / (width_new : ℚ)
  { x1 := (c.x1 * (lw : ℚ) - pl) * scale
    y1 := (c.y1 * (lh : ℚ) - pt) * scale
    x2 := (c.x2 * (lw : ℚ) - pl) * scale
    y2 := (c.y2 * (lh : ℚ) - pt) * scale }

/-- Modelled from the spec: the Letterbox Preprocessor's coordinate mapping
(spec §4.1) specialized to a square `M×M` image and square `(N, N)` letterbox
resolution, where the content dimensions are `(N, N)` and
`pad_left = pad_top = 0`: a pixel coordinate `x` maps to letterbox pixel
`x * (N / M)`, normalized to `x * (N / M) / N`; the detector reports boxes in
center form. -/
def specLetterboxNormalize (M N : ℤ) (b : XBox) : CBox :=
  let nx1 := b.x1 * ((N : ℚ) / (M : ℚ)) / (N : ℚ)
  let ny1 := b.y1 * ((N : ℚ) / (M : ℚ)) / (N : ℚ)
  let nx2 := b.x2 * ((N : ℚ) / (M : ℚ)) / (N : ℚ)
  let ny2 := b.y2 * ((N : ℚ) / (M : ℚ)) / (N : ℚ)
  { xc := (nx1 + nx2) / 2
    yc := (ny1 + ny2) / 2
    w := nx2 - nx1
    h := ny2 - ny1 }

/-- C2: for an original image of size `(1280, 720)` and letterbox resolution
`(640, 640)`, `post_process` maps the raw detection at the exact center
`(xc = 1/2, yc = 1/2, w = 1/10, h = 1/10)` to the box
`(576, 296, 704, 424)`, whose center is `(640, 360)` in original pixel
space: the center of the letterboxed canvas maps back to the center of the
original image. -/
theorem postProcess_center_maps_to_center :
    postProcess 1280 720 640 640 [⟨1/2, 1/2, 1/10, 1/10⟩] =
      .ok [⟨576, 296, 704, 424⟩] ∧
    ((576 : ℚ) + 704) / 2 = 640 ∧ ((296 : ℚ) + 424) / 2 = 360 := by
  refine ⟨?_, by norm_num, by norm_num⟩
  norm_num [postProcess, postProcessBox, xcycwhToXyxy, contentW, contentH,
    padLeft, padTop, pyFloorDiv, pytrunc]

/-- C5: the confidence filter keeps a detection exactly when its confidence
is strictly greater than the threshold; a detection with confidence equal to
the threshold is excluded, and one with confidence `t + e` for positive `e`
is included. -/
theorem filterByConf_strict (t : ℚ) (l : List Detection) (d : Detection) :
    (d ∈ filterByConf t l ↔ d ∈ l ∧ t < d.conf) ∧
    (d.conf = t → d ∉ filterByConf t l) ∧
    (∀ e : ℚ, 0 < e → d.conf = t + e → d ∈ l → d ∈ filterByConf t l) := by
  have hmem : d ∈ filterByConf t l ↔ d ∈ l ∧ t < d.conf := by
    simp [filterByConf, List.mem_filter]
  refine ⟨hmem, ?_, ?_⟩
  · intro hconf hin
    exact absurd ((hmem.1 hin).2) (by simp [hconf])
  · intro e he hconf hin
    exact hmem.2 ⟨hin, by simp [hconf, he]⟩

/-- C5 witness at concrete inputs. -/
theorem filterByConf_strict_witness :
    (⟨⟨0, 0, 1, 1⟩, 0, 1/2⟩ : Detection) ∉
      filterByConf (1/2) [⟨⟨0, 0, 1, 1⟩, 0, 1/2⟩] ∧
    (⟨⟨0, 0, 1, 1⟩, 0, 1/2 + 1/100⟩ : Detection) ∈
      filterByConf (1/2) [⟨⟨0, 0, 1, 1⟩, 0, 1/2 + 1/100⟩] := by
  constructor
  · exact (filterByConf_strict (1/2) [⟨⟨0, 0, 1, 1⟩, 0, 1/2⟩]
      ⟨⟨0, 0, 1, 1⟩, 0, 1/2⟩).2.1 rfl
  · exact (filterByConf_strict (1/2) [⟨⟨0, 0, 1, 1⟩, 0, 1/2 + 1/100⟩]
      ⟨⟨0, 0, 1, 1⟩, 0, 1/2 + 1/100⟩).2.2 (1/100) (by norm_num) rfl (by simp)

/-- C6: the filtered result is a subsequence of the input (so any two
surviving detections keep their relative order and the result is never
re-sorted), and an all-below-threshold input yields the empty list as a
valid value. -/
theorem filterByConf_order (t : ℚ) (l : List Detection) :
    (filterByConf t l).Sublist l ∧
    ((∀ d ∈ l, d.conf ≤ t) → filterByConf t l = []) ∧
    filterByConf t [] = [] := by
  refine ⟨List.filter_sublist l, ?_, rfl⟩
  intro hall
  rw [filterByConf, List.filter_eq_nil_iff]
  intro d hd
  simpa using not_lt.2 (hall d hd)

/-- C6 witness at concrete inputs. -/
theorem filterByConf_order_witness :
    (filterByConf (1/2) [⟨⟨0, 0, 1, 1⟩, 0, 1/4⟩, ⟨⟨0, 0, 1, 1⟩, 1, 3/4⟩]).Sublist
      [⟨⟨0, 0, 1, 1⟩, 0, 1/4⟩, ⟨⟨0, 0, 1, 1⟩, 1, 3/4⟩] ∧
    filterByConf (1/2) [⟨⟨0, 0, 1, 1⟩, 0, 1/4⟩] = [] := by
  constructor
  · exact (filterByConf_order (1/2) _).1
  · exact (filterByConf_order (1/2) [⟨⟨0, 0, 1, 1⟩, 0, 1/4⟩]).2.1
      (by intro d hd; simp at hd; simp [hd]; norm_num)

/-- C9: `_filter_format` raises exactly when the argument is not the string
`"onnx"`: the string `"onnx"` is accepted, every other string is rejected,
and the zero-argument call — whose default argument is the list
`DEFAULT_EXPORT_FORMAT` itself, never `==` to a string — raises as well. -/
theorem filterFormat_rejects_unsupported :
    filterFormat (.str "onnx") = .ok () ∧
    (∀ s : String, s ≠ "onnx" → filterFormat (.str s) = .error .valueError) ∧
    filterFormatDefault = .error .valueError ∧
    (∀ arg : FormatArg, filterFormat arg = .error .valueError ↔ arg ≠ .str "onnx") := by
  have key : ∀ arg : FormatArg, filterFormat arg = .error .valueError ↔ arg ≠ .str "onnx" := by
    intro arg
    cases arg with
    | str s =>
      by_cases hs : s = "onnx" <;>
        simp [filterFormat, pyInDefaultFormats, DEFAULT_EXPORT_FORMAT, hs]
    | strList l =>
      simp [filterFormat, pyInDefaultFormats]
  refine ⟨?_, fun s hs => (key (.str s)).2 (by simp [hs]), (key _).2 (by simp), key⟩
  simp [filterFormat, pyInDefaultFormats, DEFAULT_EXPORT_FORMAT]

/-- C9 witness at a concrete rejected string. -/
theorem filterFormat_rejects_unsupported_witness :
    filterFormat (.str "torchscript") = .error .valueError :=
  (filterFormat_rejects_unsupported).2.1 "torchscript" (by decide)

/-- C10: the stored `self.infer_resolution` always equals the constructor
argument unchanged — the int-to-pair normalization of lines 37-38 is dead,
overwritten by line 39 — so an integer argument stays an integer and the
tuple unpacking at line 110 of `post_process` then raises `TypeError`
instead of using an `(n, n)` square resolution. -/
theorem storeInferResolution_unchanged :
    (∀ arg : ResolutionArg, storeInferResolution arg = arg) ∧
    (∀ n : ℤ, storeInferResolution (.int n) = .int n) ∧
    (∀ n w h : ℤ, ∀ bs : List CBox,
      postProcessR (storeInferResolution (.int n)) w h bs = .error .typeError) := by
  refine ⟨fun arg => rfl, fun n => rfl, fun n w h bs => rfl⟩

/-- Python `int` truncation agrees with `floor` on non-negative values. -/
theorem pytrunc_of_nonneg {q : ℚ} (hq : 0 ≤ q) : pytrunc q = ⌊q⌋ := by
  simp [pytrunc, not_lt.2 hq]

/-- Floor division of a non-negative integer by 2 is non-negative. -/
theorem pyFloorDiv_two_nonneg {a : ℤ} (ha : 0 ≤ a) : 0 ≤ pyFloorDiv a 2 := by
  rw [pyFloorDiv]
  exact Int.le_floor.mpr (by push_cast; exact div_nonneg (by exact_mod_cast ha) (by norm_num))

/-- C4 counterexample: for the square image `(640, 640)` with letterbox
resolution `(640, 640)` the content dimensions are `(640, 640)`, so BOTH
`content_width = letterbox_width` and `content_height = letterbox_height`
hold and the claimed "exactly one" disjunction is false. -/
theorem letterbox_exactly_one_false :
    contentW 640 640 640 640 = 640 ∧ contentH 640 640 640 640 = 640 ∧
    ¬ ((contentW 640 640 640 640 = 640 ∧ ¬ contentH 640 640 640 640 = 640) ∨
       (¬ contentW 640 640 640 640 = 640 ∧ contentH 640 640 640 640 = 640)) := by
  have h1 : contentW 640 640 640 640 = 640 := by norm_num [contentW]
  have h2 : contentH 640 640 640 640 = 640 := by norm_num [contentH, pytrunc]
  exact ⟨h1, h2, by simp [h1, h2]⟩

/-- C4 amended: for positive image dimensions and positive letterbox
resolution, the content dimensions satisfy `content_width ≤ letterbox_width`,
`content_height ≤ letterbox_height`, AT LEAST one of the two equals its
letterbox bound (both exactly when the aspect ratios coincide), and both
paddings are non-negative. -/
theorem letterbox_invariant_at_least_one (w h lw lh : ℤ)
    (hw : 0 < w) (hh : 0 < h) (hlw : 0 < lw) (hlh : 0 < lh) :
    contentW w h lw lh ≤ lw ∧ contentH w h lw lh ≤ lh ∧
    (contentW w h lw lh = lw ∨ contentH w h lw lh = lh) ∧
    0 ≤ padLeft w h lw lh ∧ 0 ≤ padTop w h lw lh := by
  have hwq : (0 : ℚ) < (w : ℚ) := by exact_mod_cast hw
  have hhq : (0 : ℚ) < (h : ℚ) := by exact_mod_cast hh
  have hlwq : (0 : ℚ) < (lw : ℚ) := by exact_mod_cast hlw
  have hlhq : (0 : ℚ) < (lh : ℚ) := by exact_mod_cast hlh
  have hr : (0 : ℚ) < (w : ℚ) / (h : ℚ) := div_pos hwq hhq
  have main : contentW w h lw lh ≤ lw ∧ contentH w h lw lh ≤ lh ∧
      (contentW w h lw lh = lw ∨ contentH w h lw lh = lh) := by
    by_cases hbr : (w : ℚ) / (h : ℚ) ≥ (lw : ℚ) / (lh : ℚ)
    · have hcw : contentW w h lw lh = lw := by rw [contentW, if_pos hbr]
      have hch : contentH w h lw lh ≤ lh := by
        rw [contentH, if_pos hbr, pytrunc_of_nonneg (le_of_lt (div_pos hlwq hr))]
        have h1 : (lw : ℚ) / ((w : ℚ) / (h : ℚ)) ≤ (lh : ℚ) := by
          rw [div_le_iff₀ hr]
          calc (lw : ℚ) = (lh : ℚ) * ((lw : ℚ) / (lh : ℚ)) := by field_simp
            _ ≤ (lh : ℚ) * ((w : ℚ) / (h : ℚ)) :=
                mul_le_mul_of_nonneg_left hbr (le_of_lt hlhq)
        calc ⌊(lw : ℚ) / ((w : ℚ) / (h : ℚ))⌋ ≤ ⌊(lh : ℚ)⌋ := Int.floor_le_floor h1
          _ = lh := Int.floor_intCast lh
      exact ⟨le_of_eq hcw, hch, Or.inl hcw⟩
    · have hlt : (w : ℚ) / (h : ℚ) < (lw : ℚ) / (lh : ℚ) := lt_of_not_ge hbr
      have hch : contentH w h lw lh = lh := by rw [contentH, if_neg hbr]
      have hcw : contentW w h lw lh ≤ lw := by
        rw [contentW, if_neg hbr,
          pytrunc_of_nonneg (le_of_lt (mul_pos hlhq hr))]
        have h1 : (lh : ℚ) * ((w : ℚ) / (h : ℚ)) ≤ (lw : ℚ) := by
          calc (lh : ℚ) * ((w : ℚ) / (h : ℚ)) ≤ (lh : ℚ) * ((lw : ℚ) / (lh : ℚ)) :=
              mul_le_mul_of_nonneg_left (le_of_lt hlt) (le_of_lt hlhq)
            _ = (lw : ℚ) := by field_simp
        calc ⌊(lh : ℚ) * ((w : ℚ) / (h : ℚ))⌋ ≤ ⌊(lw : ℚ)⌋ := Int.floor_le_floor h1
          _ = lw := Int.floor_intCast lw
      exact ⟨hcw, le_of_eq hch, Or.inr hch⟩
  exact ⟨main.1, main.2.1, main.2.2,
    pyFloorDiv_two_nonneg (by omega : (0 : ℤ) ≤ lw - contentW w h lw lh),
    pyFloorDiv_two_nonneg (by omega : (0 : ℤ) ≤ lh - contentH w h lw lh)⟩

/-- C4 amended, witness at the concrete image `(1280, 720)` with letterbox
resolution `(640, 640)`. -/
theorem letterbox_invariant_at_least_one_witness :
    contentW 1280 720 640 640 ≤ 640 ∧ contentH 1280 720 640 640 ≤ 640 ∧
    (contentW 1280 720 640 640 = 640 ∨ contentH 1280 720 640 640 = 640) ∧
    0 ≤ padLeft 1280 720 640 640 ∧ 0 ≤ padTop 1280 720 640 640 :=
  letterbox_invariant_at_least_one 1280 720 640 640
    (by norm_num) (by norm_num) (by norm_num) (by norm_num)

/-- A zero image dimension or a zero letterbox component always makes
`post_process` raise `ZeroDivisionError` at one of its divisions. -/
theorem postProcess_zero_dim (w h lw lh : ℤ) (bs : List CBox)
    (hw : 0 ≤ w) (hh : 0 ≤ h) (hlw : 0 ≤ lw) (hlh : 0 ≤ lh)
    (hbad : w = 0 ∨ h = 0 ∨ lw = 0 ∨ lh = 0) :
    postProcess w h lw lh bs = .error .zeroDivisionError := by
  by_cases hlh0 : lh = 0
  · simp [postProcess, hlh0]
  by_cases hh0 : h = 0
  · simp [postProcess, hlh0, hh0]
  have hhq : (0 : ℚ) < (h : ℚ) := by
    have h1 : 0 < h := lt_of_le_of_ne hh (Ne.symm hh0)
    exact_mod_cast h1
  have hlhq : (0 : ℚ) < (lh : ℚ) := by
    have h1 : 0 < lh := lt_of_le_of_ne hlh (Ne.symm hlh0)
    exact_mod_cast h1
  by_cases hw0 : w = 0
  · subst hw0
    by_cases hlw0 : lw = 0
    · subst hlw0
      simp [postProcess, hlh0, hh0]
    · have hlwq : (0 : ℚ) < (lw : ℚ) := by
        have h1 : 0 < lw := lt_of_le_of_ne hlw (Ne.symm hlw0)
        exact_mod_cast h1
      have htr : (0 : ℚ) < (lw : ℚ) / (lh : ℚ) := div_pos hlwq hlhq
      have hcw : contentW 0 h lw lh = 0 := by
        rw [contentW]
        rw [if_neg ?hbrneg]
        · push_cast
          rw [zero_div, mul_zero]
          simp [pytrunc]
        case hbrneg =>
          push_cast
          rw [zero_div]
          exact not_le.2 htr
      simp [postProcess, hlh0, hh0, hcw]
  · have hwq : (0 : ℚ) < (w : ℚ) := by
      have h1 : 0 < w := lt_of_le_of_ne hw (Ne.symm hw0)
      exact_mod_cast h1
    have hr : (0 : ℚ) < (w : ℚ) / (h : ℚ) := div_pos hwq hhq
    have hlw0 : lw = 0 := by tauto
    subst hlw0
    have hcw : contentW w h 0 lh = 0 := by
      rw [contentW, if_pos]
      push_cast
      rw [zero_div]
      exact le_of_lt hr
    simp [postProcess, hlh0, hh0, hcw]

/-- C8 counterexample: with a loadable `(1280, 720)` image and a stored
letterbox resolution with a zero component, `(640, 0)`, `infer` fails with
`ZeroDivisionError` raised at the `target_ratio` division inside
`post_process` — after preprocessing and the detector call — not with a
distinct `InvalidInput` kind before any pipeline step. -/
theorem infer_no_invalidInput_kind :
    infer ⟨true, 1280, 720⟩ ⟨[0], [⟨1/2, 1/2, 1/10, 1/10⟩], [9/10]⟩
        (.pair 640 0) (1/2) = .error .zeroDivisionError ∧
    (Except.error PyErr.zeroDivisionError : Except PyErr (List Detection)) ≠
      .error .invalidInput := by
  constructor
  · simp [infer, postProcessR, unpackResolution, storeInferResolution, postProcess]
  · simp

/-- C8 amended: `infer` performs no upfront validation and produces no
distinct `InvalidInput` kind.  A failed image load surfaces as the image
library's own load failure; a zero image dimension or a zero letterbox
component surfaces as `ZeroDivisionError` raised inside `post_process`, after
preprocessing and the detector call; and a negative letterbox component is
not rejected at all (the call succeeds). -/
theorem infer_bad_input_amended (img : ImageFile) (out : DetectorOut)
    (lw lh : ℤ) (conf : ℚ)
    (himg : img.loadable = true) (hw : 0 ≤ img.width) (hh : 0 ≤ img.height)
    (hlw : 0 ≤ lw) (hlh : 0 ≤ lh)
    (hbad : img.width = 0 ∨ img.height = 0 ∨ lw = 0 ∨ lh = 0) :
    infer img out (.pair lw lh) conf = .error .zeroDivisionError ∧
    (∀ w2 h2 : ℤ, infer ⟨false, w2, h2⟩ out (.pair lw lh) conf = .error .loadError) ∧
    (infer ⟨true, 1280, 720⟩ ⟨[0], [⟨1/2, 1/2, 1/10, 1/10⟩], [9/10]⟩
        (.pair (-640) 640) (1/2)).isOk = true := by
  refine ⟨?_, fun w2 h2 => by simp [infer], ?_⟩
  · simp [infer, himg, postProcessR, storeInferResolution, unpackResolution,
      postProcess_zero_dim img.width img.height lw lh out.boxes hw hh hlw hlh hbad]
  · norm_num [infer, postProcessR, storeInferResolution, unpackResolution, postProcess,
      contentW, contentH, padLeft, padTop, pyFloorDiv, pytrunc, mkDetections, filterByConf]
    rfl

/-- C8 amended, witness: a loadable image reporting height `0` with the
default `(640, 640)` resolution makes `infer` fail with `ZeroDivisionError`. -/
theorem infer_bad_input_amended_witness :
    infer ⟨true, 640, 0⟩ ⟨[0], [⟨1/2, 1/2, 1/10, 1/10⟩], [9/10]⟩ (.pair 640 640) (1/2) =
      .error .zeroDivisionError :=
  (infer_bad_input_amended ⟨true, 640, 0⟩ ⟨[0], [⟨1/2, 1/2, 1/10, 1/10⟩], [9/10]⟩
    640 640 (1/2) rfl (by decide) (by decide) (by decide) (by decide)
    (Or.inr (Or.inl rfl))).1

/-- When `post_process` succeeds it returns one box per input box. -/
theorem postProcess_ok_length {w h lw lh : ℤ} {bs : List CBox} {ys : List XBox}
    (hpp : postProcess w h lw lh bs = .ok ys) : ys.length = bs.length := by
  unfold postProcess at hpp
  split at hpp
  · exact absurd hpp (by simp)
  split at hpp
  · exact absurd hpp (by simp)
  split at hpp
  · exact absurd hpp (by simp)
  split at hpp
  · exact absurd hpp (by simp)
  injection hpp with h1
  rw [← h1, List.length_map]

/-- C7: whenever the detector output arrays have inconsistent lengths and the
earlier stages go through (the image loads and `post_process` succeeds on the
box array), `infer` fails with the `ShapeMismatch` kind of the `sv.Detections`
constructor and returns no partial result. -/
theorem infer_shape_mismatch (img : ImageFile) (out : DetectorOut)
    (res : ResolutionArg) (conf : ℚ) (xyxy : List XBox)
    (himg : img.loadable = true)
    (hpp : postProcessR (storeInferResolution res) img.width img.height out.boxes = .ok xyxy)
    (hmis : ¬ (out.labels.length = out.boxes.length ∧ out.boxes.length = out.scores.length)) :
    infer img out res conf = .error .shapeMismatch := by
  have hlen : xyxy.length = out.boxes.length := by
    unfold postProcessR at hpp
    cases hres : unpackResolution (storeInferResolution res) with
    | error e => rw [hres] at hpp; exact absurd hpp (by simp)
    | ok p =>
      obtain ⟨lw, lh⟩ := p
      rw [hres] at hpp
      exact postProcess_ok_length hpp
  have hcond : ¬ (xyxy.length = out.scores.length ∧ out.scores.length = out.labels.length) := by
    rw [hlen]; omega
  simp [infer, himg, hpp, mkDetections, hcond]

/-- C7 witness: 3 labels, 2 boxes, 3 scores on a loadable `(1280, 720)`
image with resolution `(640, 640)`. -/
theorem infer_shape_mismatch_witness :
    infer ⟨true, 1280, 720⟩
      ⟨[0, 1, 2], [⟨1/2, 1/2, 1/10, 1/10⟩, ⟨1/2, 1/2, 1/10, 1/10⟩], [9/10, 8/10, 7/10]⟩
      (.pair 640 640) (1/2) = .error .shapeMismatch :=
  infer_shape_mismatch _ _ _ _ [⟨576, 296, 704, 424⟩, ⟨576, 296, 704, 424⟩] rfl
    (by norm_num [postProcessR, storeInferResolution, unpackResolution, postProcess,
        postProcessBox, xcycwhToXyxy, contentW, contentH, padLeft, padTop, pyFloorDiv, pytrunc])
    (by decide)

/-- Python `int` truncation is the identity on integers. -/
theorem pytrunc_intCast (n : ℤ) : pytrunc ((n : ℚ)) = n := by
  rw [pytrunc]
  split
  · exact Int.ceil_intCast n
  · exact Int.floor_intCast n

/-- For positive inputs the code's truncating `width_new` agrees with the
`floor`-worded `width_new` of claim C1. -/
theorem claimContentW_eq (w h lw lh : ℤ) (hw : 0 < w) (hh : 0 < h) (hlh : 0 < lh) :
    contentW w h lw lh = claimContentW w h lw lh := by
  rw [contentW, claimContentW]
  by_cases hbr : (w : ℚ) / (h : ℚ) ≥ (lw : ℚ) / (lh : ℚ)
  · rw [if_pos hbr, if_pos hbr]
  · rw [if_neg hbr, if_neg hbr, pytrunc_of_nonneg]
    exact le_of_lt (mul_pos (by exact_mod_cast hlh)
      (div_pos (by exact_mod_cast hw) (by exact_mod_cast hh)))

/-- For positive inputs the code's truncating `height_new` agrees with the
`floor`-worded `height_new` of claim C1. -/
theorem claimContentH_eq (w h lw lh : ℤ) (hw : 0 < w) (hh : 0 < h) (hlw : 0 < lw) :
    contentH w h lw lh = claimContentH w h lw lh := by
  rw [contentH, claimContentH]
  by_cases hbr : (w : ℚ) / (h : ℚ) ≥ (lw : ℚ) / (lh : ℚ)
  · rw [if_pos hbr, if_pos hbr, pytrunc_of_nonneg]
    exact le_of_lt (div_pos (by exact_mod_cast hlw)
      (div_pos (by exact_mod_cast hw) (by exact_mod_cast hh)))
  · rw [if_neg hbr, if_neg hbr]

/-- C1 counterexample: at image size `(1, 641)` with letterbox resolution
`(640, 640)` the content width truncates to `0`, so `post_process` raises
`ZeroDivisionError` at `scale = input_w / width_new` instead of mapping the
boxes through the claimed steps. -/
theorem postProcess_claim_steps_false :
    postProcess 1 641 640 640 [⟨1/2, 1/2, 1/2, 1/2⟩] = .error .zeroDivisionError ∧
    postProcess 1 641 640 640 [⟨1/2, 1/2, 1/2, 1/2⟩] ≠
      .ok (List.map (specC1Map 1 641 640 640) [⟨1/2, 1/2, 1/2, 1/2⟩]) := by
  have h1 : postProcess 1 641 640 640 [⟨1/2, 1/2, 1/2, 1/2⟩] =
      .error .zeroDivisionError := by
    norm_num [postProcess, contentW, pytrunc]
  exact ⟨h1, by rw [h1]; simp⟩

/-- C1 amended: for positive image dimensions, positive letterbox resolution
and positive computed content width, `post_process` maps each box by exactly
the claimed steps in order — corner conversion, scaling by the letterbox
dimensions, the floor-computed content dimensions and paddings, and the
single uniform factor `scale = input_w / width_new` — preserving the input
ordering (an elementwise map) with no clamping. -/
theorem postProcess_claim_steps (w h lw lh : ℤ) (bs : List CBox)
    (hw : 0 < w) (hh : 0 < h) (hlw : 0 < lw) (hlh : 0 < lh)
    (hcw : 0 < contentW w h lw lh) :
    postProcess w h lw lh bs = .ok (bs.map (specC1Map w h lw lh)) := by
  have hr : (0 : ℚ) < (w : ℚ) / (h : ℚ) :=
    div_pos (by exact_mod_cast hw) (by exact_mod_cast hh)
  have hc1 := claimContentW_eq w h lw lh hw hh hlh
  have hc2 := claimContentH_eq w h lw lh hw hh hlw
  rw [postProcess, if_neg (by omega : ¬ lh = 0), if_neg (by omega : ¬ h = 0),
    if_neg (fun hc => absurd hc.2 (ne_of_gt hr)),
    if_neg (by omega : ¬ contentW w h lw lh = 0)]
  have hfun : (fun b => postProcessBox w h lw lh (xcycwhToXyxy b)) =
      specC1Map w h lw lh := by
    funext b
    rw [postProcessBox, specC1Map, padLeft, padTop, pyFloorDiv, pyFloorDiv, hc1, hc2]
    norm_num
  rw [hfun]

/-- C1 amended, witness at the `(1280, 720)` image with `(640, 640)`
resolution and the center box. -/
theorem postProcess_claim_steps_witness :
    postProcess 1280 720 640 640 [⟨1/2, 1/2, 1/10, 1/10⟩] =
      .ok (List.map (specC1Map 1280 720 640 640) [⟨1/2, 1/2, 1/10, 1/10⟩]) :=
  postProcess_claim_steps 1280 720 640 640 _ (by norm_num) (by norm_num)
    (by norm_num) (by norm_num) (by norm_num [contentW])

/-- For a square image and a square letterbox the content width is the full
letterbox width. -/
theorem contentW_square (M N : ℤ) (hM : M ≠ 0) (hN : N ≠ 0) :
    contentW M M N N = N := by
  have hMq : (M : ℚ) ≠ 0 := by exact_mod_cast hM
  have hNq : (N : ℚ) ≠ 0 := by exact_mod_cast hN
  rw [contentW, if_pos (by rw [div_self hMq, div_self hNq])]

/-- For a square image and a square letterbox the content height is the full
letterbox height. -/
theorem contentH_square (M N : ℤ) (hM : M ≠ 0) (hN : N ≠ 0) :
    contentH M M N N = N := by
  have hMq : (M : ℚ) ≠ 0 := by exact_mod_cast hM
  have hNq : (N : ℚ) ≠ 0 := by exact_mod_cast hN
  rw [contentH, if_pos (by rw [div_self hMq, div_self hNq]), div_self hMq,
    div_one, pytrunc_intCast]

/-- For a square image and a square letterbox both paddings vanish. -/
theorem pad_square (M N : ℤ) (hM : M ≠ 0) (hN : N ≠ 0) :
    padLeft M M N N = 0 ∧ padTop M M N N = 0 := by
  constructor
  · rw [padLeft, contentW_square M N hM hN, sub_self, pyFloorDiv]
    norm_num
  · rw [padTop, contentH_square M N hM hN, sub_self, pyFloorDiv]
    norm_num

/-- Inverting the spec's square-image letterbox normalization through
`post_process`'s per-box arithmetic is the identity. -/
theorem postProcessBox_square_inverse (M N : ℤ) (hM : M ≠ 0) (hN : N ≠ 0) (x : XBox) :
    postProcessBox M M N N (xcycwhToXyxy (specLetterboxNormalize M N x)) = x := by
  have hMq : (M : ℚ) ≠ 0 := by exact_mod_cast hM
  have hNq : (N : ℚ) ≠ 0 := by exact_mod_cast hN
  obtain ⟨x1, y1, x2, y2⟩ := x
  rw [postProcessBox, contentW_square M N hM hN, (pad_square M N hM hN).1,
    (pad_square M N hM hN).2, specLetterboxNormalize, xcycwhToXyxy]
  simp only [XBox.mk.injEq, Int.cast_zero]
  refine ⟨?_, ?_, ?_, ?_⟩ <;> (field_simp; ring)

/-- C3: for any square `(N, N)` image with letterbox resolution `(N, N)` the
transform used by `post_process` is the identity — content dimensions
`(N, N)`, `pad_left = pad_top = 0`, `scale = 1` — so a box in normalized
letterbox coordinates maps back exactly to its pixel coordinates; and more
generally, for any square `M×M` image with square `(N, N)` letterbox,
`post_process` composed with the spec's preprocessing normalization returns
the original pixel coordinates exactly. -/
theorem postProcess_square_roundtrip (N : ℤ) (hN : 0 < N) :
    contentW N N N N = N ∧ contentH N N N N = N ∧
    padLeft N N N N = 0 ∧ padTop N N N N = 0 ∧
    (N : ℚ) / ((contentW N N N N : ℤ) : ℚ) = 1 ∧
    (∀ bs : List CBox, postProcess N N N N bs =
      .ok (bs.map (fun b =>
        ⟨(b.xc - b.w / 2) * (N : ℚ), (b.yc - b.h / 2) * (N : ℚ),
         (b.xc + b.w / 2) * (N : ℚ), (b.yc + b.h / 2) * (N : ℚ)⟩))) ∧
    (∀ M : ℤ, 0 < M → ∀ xs : List XBox,
      postProcess M M N N (xs.map (specLetterboxNormalize M N)) = .ok xs) := by
  have hN0 : N ≠ 0 := by omega
  have hNq : (N : ℚ) ≠ 0 := by exact_mod_cast hN0
  have hsq : ∀ M : ℤ, M ≠ 0 → ∀ bs : List CBox, postProcess M M N N bs =
      .ok (bs.map (fun b => postProcessBox M M N N (xcycwhToXyxy b))) := by
    intro M hM bs
    have hMq : (M : ℚ) ≠ 0 := by exact_mod_cast hM
    rw [postProcess, if_neg hN0, if_neg hM,
      if_neg (fun hc => absurd ((div_self hMq).symm.trans hc.2) one_ne_zero),
      if_neg (by rw [contentW_square M N hM hN0]; exact hN0)]
  refine ⟨contentW_square N N hN0 hN0, contentH_square N N hN0 hN0,
    (pad_square N N hN0 hN0).1, (pad_square N N hN0 hN0).2, ?_, ?_, ?_⟩
  · rw [contentW_square N N hN0 hN0, div_self hNq]
  · intro bs
    rw [hsq N hN0 bs]
    have hfun : (fun b => postProcessBox N N N N (xcycwhToXyxy b)) =
        (fun b : CBox =>
          (⟨(b.xc - b.w / 2) * (N : ℚ), (b.yc - b.h / 2) * (N : ℚ),
            (b.xc + b.w / 2) * (N : ℚ), (b.yc + b.h / 2) * (N : ℚ)⟩ : XBox)) := by
      funext b
      rw [postProcessBox, contentW_square N N hN0 hN0, (pad_square N N hN0 hN0).1,
        (pad_square N N hN0 hN0).2, xcycwhToXyxy]
      simp only [XBox.mk.injEq, Int.cast_zero]
      refine ⟨?_, ?_, ?_, ?_⟩ <;> (rw [div_self hNq]; ring)
    rw [hfun]
  · intro M hM xs
    rw [hsq M (by omega) (xs.map (specLetterboxNormalize M N)), List.map_map]
    have hid : (fun b => postProcessBox M M N N (xcycwhToXyxy b)) ∘
        specLetterboxNormalize M N = id := by
      funext x
      exact postProcessBox_square_inverse M N (by omega) hN0 x
    rw [hid, List.map_id]

/-- C3 witness at `N = 640`, `M = 1280`, with concrete boxes. -/
theorem postProcess_square_roundtrip_witness :
    postProcess 640 640 640 640 [⟨1/2, 1/2, 1/4, 1/4⟩] =
      .ok [⟨(1/2 - 1/4/2) * (640 : ℚ), (1/2 - 1/4/2) * (640 : ℚ),
           (1/2 + 1/4/2) * (640 : ℚ), (1/2 + 1/4/2) * (640 : ℚ)⟩] ∧
    postProcess 1280 1280 640 640
      ([⟨100, 200, 300, 400⟩].map (specLetterboxNormalize 1280 640)) =
      .ok [⟨100, 200, 300, 400⟩] := by
  constructor
  · have h1 := ((postProcess_square_roundtrip 640 (by norm_num)).2.2.2.2.2.1)
      [⟨1/2, 1/2, 1/4, 1/4⟩]
    rw [h1]
    rfl
  · exact ((postProcess_square_roundtrip 640 (by norm_num)).2.2.2.2.2.2)
      1280 (by norm_num) [⟨100, 200, 300, 400⟩]
